import Mathlib

/-!
Verification of the DOI Navigator metadata pipeline (`doi_metadata_gui.py`).

We shallowly embed the core pure pipeline of the program:
  * `normalize_doi_input` — identifier normalization,
  * `_extract_fields_generic`, `fetch_metadata_unified` — two-tier metadata
    resolution (network calls abstracted as already-obtained responses),
  * `fetch_parallel` — batch resolution with completion-order re-sorting
    (the completion order of the thread pool is an explicit parameter),
  * `read_jcr`, `_pick_scopus_title_col` — reference-table loaders,
  * `merge_enrich_fast` — the fuzzy enrichment engine (the external
    string-similarity scorer is an explicit function parameter).

Python strings are modelled as Lean `String` (a wrapper around `List Char`),
with Python's `str.strip`, `str.split`, `str.lower` etc. re-implemented on the
character-list level.  Spreadsheet cells are modelled by the inductive `Cell`
(with `Cell.null` standing for `None`/`NaN`); absent optional JSON string
fields are modelled as `""`, matching how the program consumes them.
-/

namespace DOINav

/-- Python `str.strip` on the leading side: drop leading whitespace. -/
def dropLeadWs (l : List Char) : List Char := l.dropWhile Char.isWhitespace

/-- Python `str.strip` on the trailing side: drop trailing whitespace. -/
def dropTrailWs (l : List Char) : List Char :=
  (l.reverse.dropWhile Char.isWhitespace).reverse

/-- Python `str.strip()` on a character list. -/
def pyStripL (l : List Char) : List Char := dropTrailWs (dropLeadWs l)

/-- Python `str.strip()` on a string. -/
def pyStrip (s : String) : String := ⟨pyStripL s.data⟩

/-- Python `str.lower()` on a character list (ASCII-relevant part). -/
def pyLowerL (l : List Char) : List Char := l.map Char.toLower

/-- Python `str.split()` (split on whitespace runs, no empty words). -/
def pyWords (l : List Char) : List (List Char) :=
  (l.foldr
    (fun c acc =>
      if c.isWhitespace then [] :: acc
      else
        match acc with
        | [] => [[c]]
        | w :: ws => (c :: w) :: ws)
    []).filter (· ≠ [])

/--
`normalize_doi_input` from the source: strip, case-insensitively remove the
first matching prefix of `"https://doi.org/"`, `"http://doi.org/"`, `"doi:"`,
`"doi "` (at most one, in this priority order), then strip again.
-/
def normalize_doi_input (s : String) : String :=
  let l := pyStripL s.data
  let low := pyLowerL l
  let l :=
    if ("https://doi.org/".data).isPrefixOf low then l.drop ("https://doi.org/".length)
    else if ("http://doi.org/".data).isPrefixOf low then l.drop ("http://doi.org/".length)
    else if ("doi:".data).isPrefixOf low then l.drop ("doi:".length)
    else if ("doi ".data).isPrefixOf low then l.drop ("doi ".length)
    else l
  ⟨pyStripL l⟩

/-- Whether the lowercased text starts with one of the four recognized DOI
markers checked by `normalize_doi_input` (no initial strip: callers apply it
to already-stripped strings). -/
def startsWithRecognized (s : String) : Bool :=
  ("https://doi.org/".data).isPrefixOf (pyLowerL s.data)
  || ("http://doi.org/".data).isPrefixOf (pyLowerL s.data)
  || ("doi:".data).isPrefixOf (pyLowerL s.data)
  || ("doi ".data).isPrefixOf (pyLowerL s.data)

/-- Python `int(s)` (sign and digits, surrounding whitespace allowed),
`None` on failure. -/
def pyIntOfStr (s : List Char) : Option Int :=
  let t := pyStripL s
  match t with
  | '-' :: ds =>
    if ds ≠ [] ∧ ds.all Char.isDigit then some (-(ds.foldl (fun a c => a * 10 + (c.toNat - 48)) 0 : Nat)) else Option.none
  | '+' :: ds =>
    if ds ≠ [] ∧ ds.all Char.isDigit then some ((ds.foldl (fun a c => a * 10 + (c.toNat - 48)) 0 : Nat)) else Option.none
  | ds =>
    if ds ≠ [] ∧ ds.all Char.isDigit then some ((ds.foldl (fun a c => a * 10 + (c.toNat - 48)) 0 : Nat)) else Option.none

/-- A JSON field that may be absent, a scalar string, or a list of strings
(the shapes `_first` in the source distinguishes). -/
inductive StrField where
  | absent : StrField
  | scalar (s : String) : StrField
  | list (xs : List String) : StrField
deriving DecidableEq, Repr

/-- `_first` from the source: first element of a list-valued field, the
scalar itself, or `""`. -/
def _first : StrField → String
  | .absent => ""
  | .scalar s => s
  | .list xs => xs.headD ""

/-- One element of the `author` JSON list: either not a dict (skipped by the
source) or a dict with `given`/`family`/`name`/`literal` entries (absent
string entries modelled as `""`, which the source treats identically). -/
inductive AuthorEntry where
  | notDict : AuthorEntry
  | person (given family name literal : String) : AuthorEntry
deriving DecidableEq, Repr

/-- `fix_initials` from the source: re-join the whitespace-split tokens,
appending a period to single-letter alphabetic tokens. -/
def fix_initials (s : String) : String :=
  ⟨List.intercalate [' ']
    ((pyWords s.data).map fun tok =>
      if tok.length = 1 ∧ tok.all Char.isAlpha then tok ++ ['.'] else tok)⟩

/-- `_format_authors` from the source: format each author dict and join the
non-empty names with `"; "`. -/
def _format_authors (authors : List AuthorEntry) : String :=
  let parts := authors.filterMap fun a =>
    match a with
    | .notDict => Option.none
    | .person g f n l =>
      let given := pyStrip g
      let family := pyStrip f
      let literal := pyStrip (if n ≠ "" then n else l)
      let name :=
        if given ≠ "" ∨ family ≠ "" then pyStrip ⟨(fix_initials given).data ++ (" " ++ family).data⟩
        else literal
      if name ≠ "" then some name else Option.none
  String.intercalate "; " parts

/-- The JSON response shape consumed by `_extract_fields_generic`: the fields
the extractor reads, from either the registry message or the CSL object.
A date-container field is its `date-parts` value (`[]` when the container is
absent, not a dict, or has no parts). -/
structure CslMsg where
  title : StrField
  containerTitle : StrField
  publisher : String
  publisherName : String
  author : List AuthorEntry
  publishedPrint : List (List Int)
  issued : List (List Int)
  publishedOnline : List (List Int)
  createdDateTime : String
  isReferencedByCount : Option Int
deriving DecidableEq, Repr

/-- Year from one date-container: `parts[0][0]` when `parts` and `parts[0]`
are non-empty. -/
def dpYear (parts : List (List Int)) : Option Int :=
  match parts with
  | p0 :: _ => p0.head?
  | [] => Option.none

/-- The year loop of `_extract_fields_generic`: first of `published-print`,
`issued`, `published-online` that yields a year; on a falsy result (absent
or `0`), fall back to `int(created["date-time"][:4])`. -/
def extractYear (m : CslMsg) : Option Int :=
  let y :=
    match dpYear m.publishedPrint with
    | some v => some v
    | Option.none =>
      match dpYear m.issued with
      | some v => some v
      | Option.none => dpYear m.publishedOnline
  if y = Option.none ∨ y = some 0 then pyIntOfStr (m.createdDateTime.data.take 4) else y

/-- The uniform metadata record built by `_extract_fields_generic`
(the success-dict shape of `fetch_metadata_unified`). -/
structure MetaRecord where
  title : String
  authors : String
  journal : String
  publisher : String
  year : Option Int
  citations : Option Int
deriving DecidableEq, Repr

/-- `_extract_fields_generic` from the source. -/
def _extract_fields_generic (msg : CslMsg) (source : String) : MetaRecord :=
  { title := _first msg.title
    authors := _format_authors msg.author
    journal := _first msg.containerTitle
    publisher := if msg.publisher ≠ "" then msg.publisher else msg.publisherName
    year := extractYear msg
    citations := if source = "crossref" then msg.isReferencedByCount else Option.none }

/-- Result dict of `fetch_metadata_unified`: a success record or an
`{"error": msg}` dict. -/
inductive FetchResult where
  | ok (r : MetaRecord) : FetchResult
  | error (msg : String) : FetchResult
deriving DecidableEq, Repr

/-- The content-negotiation tier of `fetch_metadata_unified`: on a successful
response extract fields with `source="csl"`, returning the record when title
or journal is non-empty, the final error dict otherwise; a raised exception
`e` becomes the combined error message. -/
def fallbackCN : Except String CslMsg → FetchResult
  | .ok csl =>
    let data := _extract_fields_generic csl "csl"
    if data.title ≠ "" ∨ data.journal ≠ "" then .ok data
    else .error "Metadata not available from Crossref or DOI content negotiation."
  | .error e => .error ("Not found via Crossref; DOI content negotiation also failed: " ++ e)

/-- `fetch_metadata_unified` from the source, with the two network queries
abstracted as their outcomes: `cr` is the Crossref response (`none` when the
query or JSON decoding raised) and `cn` the content-negotiation response
(`Except.error e` when it raised with message `e`).  Total: every failure is
converted into a `FetchResult.error` value. -/
def fetch_metadata_unified (cr : Option CslMsg) (cn : Except String CslMsg) : FetchResult :=
  match cr with
  | some msg =>
    let data := _extract_fields_generic msg "crossref"
    if data.title ≠ "" ∨ data.journal ≠ "" then .ok data
    else fallbackCN cn
  | Option.none => fallbackCN cn

/-- One output row of `fetch_parallel` (the dict with the `DOI` key added). -/
structure Entry where
  doi : String
  title : String
  authors : String
  journal : String
  publisher : String
  year : Option Int
  citations : Option Int
deriving DecidableEq, Repr

/-- Row construction inside `fetch_parallel`'s completion loop: an error dict
becomes the `[ERROR]`-marked row with empty/null fields, a success dict is
spread after the `DOI` key. -/
def mkEntry (doi : String) : FetchResult → Entry
  | .error m => ⟨doi, "[ERROR] " ++ m, "", "", "", Option.none, Option.none⟩
  | .ok r => ⟨doi, r.title, r.authors, r.journal, r.publisher, r.year, r.citations⟩

/-- The dict comprehension `{d: i for i, d in enumerate(dois)}` as a lookup:
later indices overwrite earlier ones; `none` when absent. -/
def orderOfAux : List String → String → Nat → Option Nat
  | [], _, _ => Option.none
  | x :: xs, d, i =>
    match orderOfAux xs d (i + 1) with
    | some j => some j
    | Option.none => if x = d then some i else Option.none

/-- The sort key `order.get(e["DOI"], 10**9)` used by `fetch_parallel`. -/
def sortKey (dois : List String) (e : Entry) : Nat :=
  (orderOfAux dois e.doi 0).getD (10 ^ 9)

/-- `fetch_parallel` from the source: rows are collected in thread-pool
completion order (the `completion` parameter, a permutation of the submitted
identifiers) and re-sorted stably by original input position (Python's
`list.sort` modelled by `List.insertionSort`).  The resolver is a parameter;
the worker bound and progress reporting do not affect the value. -/
def fetch_parallel (dois : List String) (completion : List String)
    (resolve : String → FetchResult) : List Entry :=
  List.insertionSort (fun a b => sortKey dois a ≤ sortKey dois b)
    (completion.map fun d => mkEntry d (resolve d))

/-- A pandas cell: a string, a number, a boolean, or `None`/`NaN`. -/
inductive Cell where
  | str (s : String) : Cell
  | int (n : Int) : Cell
  | bool (b : Bool) : Cell
  | null : Cell
deriving DecidableEq, Repr

/-- `fillna("").astype(str)` applied to one cell. -/
def cellToStr : Cell → String
  | .str s => s
  | .int n => toString n
  | .bool b => if b then "True" else "False"
  | .null => ""

/-- The punctuation characters `normalize_journal` replaces with spaces. -/
def normPunct : List Char := [',', '.', ':', ';', '(', ')', '[', ']']

/-- The string body of `normalize_journal`: lowercase, `&`→`and`,
punctuation→space, collapse whitespace (`" ".join(s.split())`). -/
def normStrL (l : List Char) : List Char :=
  let l1 := pyLowerL l
  let l2 := l1.foldr (fun c acc => if c = '&' then 'a' :: 'n' :: 'd' :: acc else c :: acc) []
  let l3 := l2.map fun c => if normPunct.contains c then ' ' else c
  List.intercalate [' '] (pyWords l3)

def normStr (s : String) : String := ⟨normStrL s.data⟩

/-- `normalize_journal` from the source: non-string cells normalize to `""`. -/
def normalize_journal : Cell → String
  | .str s => normStr s
  | _ => ""

/-- A row of the canonical JCR table built by `read_jcr`
(`Journal`, `Impact Factor`, `Quartile`, `__norm`). -/
structure JcrRow where
  journal : Cell
  impact : Cell
  quartile : Cell
  norm : String
deriving DecidableEq, Repr

/-- A row of the canonical Scopus table (`Scopus Title`, `__norm`). -/
structure ScpRow where
  title : Cell
  norm : String
deriving DecidableEq, Repr

/-- A parsed spreadsheet: header names and cell rows (first sheet). -/
structure Sheet where
  header : List String
  rows : List (List Cell)
deriving DecidableEq, Repr

/-- `read_jcr` from the source: a hard precondition of at least 17 columns,
then a purely positional projection onto columns 1 (journal), 12 (impact),
16 (quartile) plus the per-row normalized-name key. -/
def read_jcr (s : Sheet) : Except String (List JcrRow) :=
  if s.header.length < 17 then
    .error "JCR file has fewer than 17 columns; cannot map B/M/Q reliably."
  else
    .ok (s.rows.map fun r =>
      { journal := r.getD 1 Cell.null
        impact := r.getD 12 Cell.null
        quartile := r.getD 16 Cell.null
        norm := normalize_journal (r.getD 1 Cell.null) })

/-- `c.lower().strip()` applied to a header name. -/
def lowerStrip (s : String) : String := ⟨pyStripL (pyLowerL s.data)⟩

/-- A dataframe column as seen by `_pick_scopus_title_col`: its header name
and whether its dtype is object (text). -/
structure Column where
  name : String
  isText : Bool
deriving DecidableEq, Repr

/-- The elements of the set `_SCOPUS_TITLE_LIKELY` (a Python `set` literal:
its iteration order is NOT this literal order, so the picker below takes the
iteration order as a parameter). -/
def _SCOPUS_TITLE_LIKELY : List String :=
  ["source title", "title", "journal", "publication title", "full title",
   "journal title", "journal name", "scopus title", "scopus source title"]

/-- Lookup in the dict `{c.lower().strip(): c for c in df.columns}` (later
duplicates overwrite earlier ones). -/
def pyDictGet (pairs : List (String × String)) (k : String) : Option String :=
  (pairs.reverse.find? fun p => p.1 = k).map fun p => p.2

/-- `_pick_scopus_title_col` from the source.  `iterOrder` is the iteration
order of the `_SCOPUS_TITLE_LIKELY` set (some permutation of its elements,
unspecified by Python): first header matching a likely name in that
iteration order, else the first object-dtype column, else the first column. -/
def _pick_scopus_title_col (iterOrder : List String) (cols : List Column) : String :=
  match iterOrder.findSome? fun key =>
      pyDictGet (cols.map fun c => (lowerStrip c.name, c.name)) key with
  | some c => c
  | Option.none =>
    match cols.find? fun c => c.isText with
    | some c => c.name
    | Option.none => (cols.headD ⟨"", false⟩).name

/-- The matching configuration dataclass `MatchCfg`. -/
structure MatchCfg where
  min_score : Nat
  wos_if_missing : Bool
  scopus_exact_first : Bool
deriving DecidableEq, Repr

/-- Maximum of a list of scores (`scores.max`, 0 for the empty list). -/
def listMax (l : List Nat) : Nat := l.foldr max 0

/-- `argmax`: index of the first occurrence of the maximal score. -/
def argmaxIdx (l : List Nat) : Nat := List.indexOf (listMax l) l

/-- The impact-table lookup of `merge_enrich_fast` for one normalized journal
name: best fuzzy match against the `__norm` column, accepted when its score
meets the threshold.  `useRF` selects the RapidFuzz branch (`cdist`/argmax)
or the difflib branch (`get_close_matches` with `cutoff=0.0`, which skips
empty query names and re-finds the row by the first index of the matched
string).  `sc` is the similarity scorer (WRatio resp. scaled ratio). -/
def jcrMatch (useRF : Bool) (sc : String → String → Nat) (jcr : List JcrRow)
    (cfg : MatchCfg) (name : String) : Option JcrRow :=
  if jcr.isEmpty then Option.none
  else
    let choices := jcr.map fun r => r.norm
    if useRF then
      let scores := choices.map (sc name)
      if cfg.min_score ≤ listMax scores then jcr.get? (argmaxIdx scores) else Option.none
    else
      if name = "" then Option.none
      else
        let scores := choices.map (sc name)
        let best := choices.getD (argmaxIdx scores) ""
        if cfg.min_score ≤ sc name best then jcr.get? (List.indexOf best choices)
        else Option.none

/-- The `Impact Factor (JCR)` cell for one record. -/
def jcrImpCell (useRF : Bool) (sc : String → String → Nat) (jcr : List JcrRow)
    (cfg : MatchCfg) (name : String) : Cell :=
  match jcrMatch useRF sc jcr cfg name with
  | some r => r.impact
  | Option.none => Cell.null

/-- The `Quartile (JCR)` cell for one record. -/
def jcrQrtCell (useRF : Bool) (sc : String → String → Nat) (jcr : List JcrRow)
    (cfg : MatchCfg) (name : String) : Cell :=
  match jcrMatch useRF sc jcr cfg name with
  | some r => r.quartile
  | Option.none => Cell.null

/-- The `Indexed in Web of Science` cell: initialized to `False` when
`wos_if_missing` else `None`, and set to `True` on an impact-table match
only under the `wos_if_missing` policy. -/
def wosCell (useRF : Bool) (sc : String → String → Nat) (jcr : List JcrRow)
    (cfg : MatchCfg) (name : String) : Cell :=
  if (jcrMatch useRF sc jcr cfg name).isSome ∧ cfg.wos_if_missing then Cell.bool true
  else if cfg.wos_if_missing then Cell.bool false
  else Cell.null

/-- The `Indexed in Scopus` flag for one record: exact normalized equality
first (when `scopus_exact_first`), then fuzzy best-match against the
threshold (RapidFuzz `cdist` on the rows still unmatched, resp. difflib
`get_close_matches`). -/
def scpFlag (useRF : Bool) (sc : String → String → Nat) (scopus : List ScpRow)
    (cfg : MatchCfg) (name : String) : Bool :=
  if scopus.isEmpty then false
  else
    let choices := scopus.map fun r => r.norm
    if cfg.scopus_exact_first ∧ name ∈ choices then true
    else if useRF then decide (cfg.min_score ≤ listMax (choices.map (sc name)))
    else decide (cfg.min_score ≤ sc name (choices.getD (argmaxIdx (choices.map (sc name))) ""))

/-- A pandas dataframe: ordered column names and cell rows. -/
structure Frame where
  cols : List String
  rows : List (List Cell)
deriving DecidableEq, Repr

/-- The normalized journal name of one row:
`df["Journal"].fillna("").astype(str).map(normalize_journal)`. -/
def journalNameAt (f : Frame) (r : List Cell) : String :=
  normStr (cellToStr (r.getD (List.indexOf "Journal" f.cols) Cell.null))

/-- The per-row normalized query list `q` of `merge_enrich_fast`. -/
def journalNorms (f : Frame) : List String := f.rows.map (journalNameAt f)

/-- The four columns `merge_enrich_fast` appends. -/
def newColNames : List String :=
  ["Impact Factor (JCR)", "Quartile (JCR)", "Indexed in Scopus", "Indexed in Web of Science"]

/-- `merge_enrich_fast` from the source: an empty frame is returned as-is;
otherwise the input frame is copied and the four enrichment columns are
appended, computed per row from the normalized journal name. -/
def merge_enrich_fast (useRF : Bool) (sc : String → String → Nat) (f : Frame)
    (jcr : List JcrRow) (scopus : List ScpRow) (cfg : MatchCfg) : Frame :=
  if f.rows.isEmpty || f.cols.isEmpty then f
  else
    { cols := f.cols ++ newColNames
      rows := f.rows.map fun r =>
        r ++ [jcrImpCell useRF sc jcr cfg (journalNameAt f r),
              jcrQrtCell useRF sc jcr cfg (journalNameAt f r),
              Cell.bool (scpFlag useRF sc scopus cfg (journalNameAt f r)),
              wosCell useRF sc jcr cfg (journalNameAt f r)] }

theorem dropWhile_idem (p : Char → Bool) (l : List Char) :
    (l.dropWhile p).dropWhile p = l.dropWhile p := by
  induction l with
  | nil => rfl
  | cons a as ih =>
    by_cases h : p a
    · simpa [List.dropWhile_cons, h] using ih
    · simp [List.dropWhile_cons, h]

theorem dropLeadWs_idem (l : List Char) : dropLeadWs (dropLeadWs l) = dropLeadWs l :=
  dropWhile_idem _ l

theorem dropTrailWs_idem (l : List Char) : dropTrailWs (dropTrailWs l) = dropTrailWs l := by
  simp [dropTrailWs, dropWhile_idem]

/-- `dropWhile` is the identity when the head (if any) fails the predicate. -/
theorem dropWhile_eq_self_of_head (p : Char → Bool) (l : List Char)
    (h : ∀ a, l.head? = some a → ¬p a) : l.dropWhile p = l := by
  cases l with
  | nil => rfl
  | cons a as =>
    have : ¬p a := h a rfl
    simp [List.dropWhile_cons, this]

theorem head_dropLeadWs_not_ws (l : List Char) (a : Char)
    (h : (dropLeadWs l).head? = some a) : ¬a.isWhitespace := by
  induction l with
  | nil => simp [dropLeadWs] at h
  | cons b bs ih =>
    by_cases hb : b.isWhitespace
    · exact ih (by simpa [dropLeadWs, List.dropWhile_cons, hb] using h)
    · simp [dropLeadWs, List.dropWhile_cons, hb] at h
      subst h; exact hb

theorem dropTrailWs_prefix (l : List Char) : (dropTrailWs l).IsPrefix l := by
  have h : (l.reverse.dropWhile Char.isWhitespace).IsSuffix l.reverse :=
    List.dropWhile_suffix _
  have := List.reverse_prefix.mpr h
  simpa [dropTrailWs] using this

theorem pyStripL_idem (l : List Char) : pyStripL (pyStripL l) = pyStripL l := by
  unfold pyStripL
  have hpre : (dropTrailWs (dropLeadWs l)).IsPrefix (dropLeadWs l) :=
    dropTrailWs_prefix _
  have hlead : dropLeadWs (dropTrailWs (dropLeadWs l)) = dropTrailWs (dropLeadWs l) := by
    apply dropWhile_eq_self_of_head
    intro a ha
    rcases hpre with ⟨t, ht⟩
    have hhead : (dropLeadWs l).head? = some a := by
      rw [← ht]
      cases hdt : dropTrailWs (dropLeadWs l) with
      | nil => rw [hdt] at ha; simp at ha
      | cons x xs =>
        rw [hdt] at ha
        simp at ha
        subst ha
        simp
    exact head_dropLeadWs_not_ws l a hhead
  rw [hlead, dropTrailWs_idem]

theorem orderOfAux_eq_none (xs : List String) (d : String) (i : Nat) (h : d ∉ xs) :
    orderOfAux xs d i = Option.none := by
  induction xs generalizing i with
  | nil => rfl
  | cons x xs ih =>
    rw [List.mem_cons, not_or] at h
    rw [orderOfAux, ih _ h.2]
    simp [Ne.symm h.1]

/-- On a duplicate-free list the Python order dict maps the `j`-th element to
`j` (shifted by the accumulator). -/
theorem orderOfAux_nodup (dois : List String) (hnd : dois.Nodup) (j : Nat)
    (h : j < dois.length) (i : Nat) :
    orderOfAux dois (dois.get ⟨j, h⟩) i = some (i + j) := by
  induction dois generalizing j i with
  | nil => simp at h
  | cons x xs ih =>
    cases j with
    | zero =>
      have hx : x ∉ xs := (List.nodup_cons.mp hnd).1
      rw [orderOfAux]
      simp only [List.get]
      rw [orderOfAux_eq_none xs x _ hx]
      simp
    | succ j' =>
      have hnd' := (List.nodup_cons.mp hnd).2
      have h' : j' < xs.length := by simpa using h
      rw [orderOfAux]
      simp only [List.get]
      rw [ih hnd' j' h' (i + 1)]
      simp [Nat.add_assoc, Nat.add_comm 1 j']

/-- Sorting a permutation of a list whose keys are strictly increasing
recovers that list. -/
theorem insertionSort_eq_of_pairwise_lt {α : Type} (k : α → Nat) (l m : List α)
    (hp : l.Perm m) (hs : m.Pairwise (fun a b => k a < k b)) :
    List.insertionSort (fun a b => k a ≤ k b) l = m := by
  haveI : IsTotal α (fun a b => k a ≤ k b) := ⟨fun a b => Nat.le_total (k a) (k b)⟩
  haveI : IsTrans α (fun a b => k a ≤ k b) := ⟨fun a b c h1 h2 => Nat.le_trans h1 h2⟩
  haveI : IsAntisymm α (fun a b => k a < k b) :=
    ⟨fun a b h1 h2 => absurd h1 (Nat.lt_asymm h2)⟩
  have hperm : (List.insertionSort (fun a b => k a ≤ k b) l).Perm m :=
    (List.perm_insertionSort _ l).trans hp
  have hne : m.Pairwise (fun a b => k a ≠ k b) :=
    hs.imp fun h => Nat.ne_of_lt h
  have hne' : (List.insertionSort (fun a b => k a ≤ k b) l).Pairwise (fun a b => k a ≠ k b) :=
    (hperm.pairwise_iff fun h => Ne.symm h).mpr hne
  have hle : (List.insertionSort (fun a b => k a ≤ k b) l).Sorted (fun a b => k a ≤ k b) :=
    List.sorted_insertionSort _ l
  have hlt : (List.insertionSort (fun a b => k a ≤ k b) l).Sorted (fun a b => k a < k b) :=
    (hle.and hne').imp fun h => Nat.lt_of_le_of_ne h.1 h.2
  exact List.eq_of_perm_of_sorted hperm hlt hs

theorem mkEntry_doi (d : String) (r : FetchResult) : (mkEntry d r).doi = d := by
  cases r <;> rfl

theorem sortKey_of_get (dois : List String) (hnd : dois.Nodup) (j : Nat)
    (h : j < dois.length) (r : FetchResult) :
    sortKey dois (mkEntry (dois.get ⟨j, h⟩) r) = j := by
  rw [sortKey, mkEntry_doi, orderOfAux_nodup dois hnd j h 0]
  simp

/-- For duplicate-free identifiers, any completion order sorts back to the
input order: `fetch_parallel` is the per-identifier map over the input. -/
theorem fetch_parallel_eq_map (dois completion : List String)
    (resolve : String → FetchResult) (hnd : dois.Nodup) (hc : completion.Perm dois) :
    fetch_parallel dois completion resolve
      = dois.map fun d => mkEntry d (resolve d) := by
  unfold fetch_parallel
  apply insertionSort_eq_of_pairwise_lt (sortKey dois)
  · exact hc.map _
  · rw [List.pairwise_map, List.pairwise_iff_get]
    intro i j hij
    rw [sortKey_of_get dois hnd i.1 i.2, sortKey_of_get dois hnd j.1 j.2]
    exact hij

/-- C1: for every sequence of pairwise-distinct identifiers and every
completion order of the individual resolutions, `fetch_parallel` outputs
exactly one row per input identifier, keyed by it, and the output order
equals the input order. -/
theorem fetch_parallel_order (dois completion : List String)
    (resolve : String → FetchResult) (hnd : dois.Nodup) (hc : completion.Perm dois) :
    fetch_parallel dois completion resolve = (dois.map fun d => mkEntry d (resolve d))
      ∧ (fetch_parallel dois completion resolve).map Entry.doi = dois := by
  have h := fetch_parallel_eq_map dois completion resolve hnd hc
  refine ⟨h, ?_⟩
  rw [h, List.map_map]
  have : (Entry.doi ∘ fun d => mkEntry d (resolve d)) = id := by
    funext d
    simp [Function.comp, mkEntry_doi]
  rw [this, List.map_id]

/-- C1 witness: a three-identifier batch completing in order `c, a, b` still
yields rows in input order `a, b, c`. -/
theorem fetch_parallel_order_witness :
    (["a", "b", "c"] : List String).Nodup
      ∧ (["c", "a", "b"] : List String).Perm ["a", "b", "c"]
      ∧ (fetch_parallel ["a", "b", "c"] ["c", "a", "b"]
          (fun d => FetchResult.ok ⟨"T" ++ d, "A", "J", "P", some 2020, some 3⟩)).map Entry.doi
          = ["a", "b", "c"] :=
  ⟨by decide, by decide,
    (fetch_parallel_order ["a", "b", "c"] ["c", "a", "b"]
      (fun d => FetchResult.ok ⟨"T" ++ d, "A", "J", "P", some 2020, some 3⟩)
      (by decide) (by decide)).2⟩

/-- C2: a failing identifier still yields exactly one row, with
`"[ERROR] "`-prefixed cause as title, empty authors/journal/publisher and
null year/citations, and every other identifier's row is exactly what a
fully-successful resolver would produce (failure of one item never removes,
reorders, or alters other rows). -/
theorem fetch_parallel_failure_isolation
    (dois comp comp' : List String) (resolve resolve' : String → FetchResult)
    (d0 m : String) (hnd : dois.Nodup) (hc : comp.Perm dois) (hc' : comp'.Perm dois)
    (hd0 : d0 ∈ dois) (he : resolve d0 = .error m)
    (hagree : ∀ d, d ≠ d0 → resolve d = resolve' d) :
    fetch_parallel dois comp resolve
        = (dois.map fun d =>
            if d = d0 then ⟨d0, "[ERROR] " ++ m, "", "", "", Option.none, Option.none⟩
            else mkEntry d (resolve' d))
      ∧ fetch_parallel dois comp' resolve'
        = (dois.map fun d => mkEntry d (resolve' d)) := by
  refine ⟨?_, fetch_parallel_eq_map dois comp' resolve' hnd hc'⟩
  rw [fetch_parallel_eq_map dois comp resolve hnd hc]
  apply List.map_congr_left
  intro d _
  by_cases hdd : d = d0
  · subst hdd
    simp [he, mkEntry]
  · simp [hdd, hagree d hdd]

/-- C2 witness: in a five-identifier batch where only `d3` fails, the output
has five rows in order, `d3`'s row carries the error marker, and the other
four rows match the fully-successful run. -/
theorem fetch_parallel_failure_isolation_witness :
    (["d1", "d2", "d3", "d4", "d5"] : List String).Nodup
      ∧ ("d3" : String) ∈ (["d1", "d2", "d3", "d4", "d5"] : List String)
      ∧ fetch_parallel ["d1", "d2", "d3", "d4", "d5"] ["d5", "d4", "d3", "d2", "d1"]
          (fun d => if d = "d3" then FetchResult.error "boom"
                    else FetchResult.ok ⟨"T", "A", "J", "P", some 2020, some 3⟩)
        = (["d1", "d2", "d3", "d4", "d5"].map fun d =>
            if d = "d3" then ⟨"d3", "[ERROR] boom", "", "", "", Option.none, Option.none⟩
            else mkEntry d ((fun _ => FetchResult.ok ⟨"T", "A", "J", "P", some 2020, some 3⟩) d)) :=
  ⟨by decide, by decide,
    (fetch_parallel_failure_isolation ["d1", "d2", "d3", "d4", "d5"]
      ["d5", "d4", "d3", "d2", "d1"] ["d1", "d2", "d3", "d4", "d5"]
      (fun d => if d = "d3" then FetchResult.error "boom"
                else FetchResult.ok ⟨"T", "A", "J", "P", some 2020, some 3⟩)
      (fun _ => FetchResult.ok ⟨"T", "A", "J", "P", some 2020, some 3⟩)
      "d3" "boom" (by decide) (by decide) (by decide) (by decide) (by decide)
      (fun d hd => by simp [hd])).1⟩

theorem fallbackCN_ok (csl : CslMsg)
    (hne : (_extract_fields_generic csl "csl").title ≠ ""
      ∨ (_extract_fields_generic csl "csl").journal ≠ "") :
    fallbackCN (.ok csl) = .ok (_extract_fields_generic csl "csl") := by
  have h : fallbackCN (.ok csl)
      = if (_extract_fields_generic csl "csl").title ≠ ""
            ∨ (_extract_fields_generic csl "csl").journal ≠ ""
        then .ok (_extract_fields_generic csl "csl")
        else .error "Metadata not available from Crossref or DOI content negotiation." := rfl
  rw [h, if_pos hne]

theorem fallbackCN_empty (csl : CslMsg)
    (h1 : (_extract_fields_generic csl "csl").title = "")
    (h2 : (_extract_fields_generic csl "csl").journal = "") :
    fallbackCN (.ok csl)
      = .error "Metadata not available from Crossref or DOI content negotiation." := by
  have h : fallbackCN (.ok csl)
      = if (_extract_fields_generic csl "csl").title ≠ ""
            ∨ (_extract_fields_generic csl "csl").journal ≠ ""
        then .ok (_extract_fields_generic csl "csl")
        else .error "Metadata not available from Crossref or DOI content negotiation." := rfl
  rw [h, if_neg]
  rintro (hc | hc) <;> simp [h1, h2] at hc

/-- When the primary tier fails (exception or empty extraction), the unified
fetcher returns exactly the content-negotiation tier's result. -/
theorem fetch_eq_fallback (cr : Option CslMsg) (cn : Except String CslMsg)
    (hfail : cr = Option.none
      ∨ ∃ msg, cr = some msg
          ∧ (_extract_fields_generic msg "crossref").title = ""
          ∧ (_extract_fields_generic msg "crossref").journal = "") :
    fetch_metadata_unified cr cn = fallbackCN cn := by
  rcases hfail with rfl | ⟨msg, rfl, h1, h2⟩
  · rfl
  · have h : fetch_metadata_unified (some msg) cn
        = if (_extract_fields_generic msg "crossref").title ≠ ""
              ∨ (_extract_fields_generic msg "crossref").journal ≠ ""
          then .ok (_extract_fields_generic msg "crossref")
          else fallbackCN cn := rfl
    rw [h, if_neg]
    rintro (hc | hc) <;> simp [h1, h2] at hc

/-- The extraction used on the fallback path never carries a citation count. -/
theorem csl_citations_none (csl : CslMsg) :
    (_extract_fields_generic csl "csl").citations = Option.none := by
  unfold _extract_fields_generic
  simp only []
  rw [if_neg]
  decide

/-- C3: the unified resolver is total and returns (a) the primary-registry
extraction exactly when that query succeeds with non-empty title or journal,
(b) otherwise the content-negotiation extraction exactly when that query
succeeds with non-empty title or journal — such fallback records never carry
a citation count — and (c) otherwise an error record with a message. -/
theorem fetch_metadata_unified_spec (cr : Option CslMsg) (cn : Except String CslMsg) :
    (∀ msg, cr = some msg →
      ((_extract_fields_generic msg "crossref").title ≠ ""
          ∨ (_extract_fields_generic msg "crossref").journal ≠ "") →
      fetch_metadata_unified cr cn = .ok (_extract_fields_generic msg "crossref"))
    ∧ ((cr = Option.none
          ∨ ∃ msg, cr = some msg
              ∧ (_extract_fields_generic msg "crossref").title = ""
              ∧ (_extract_fields_generic msg "crossref").journal = "") →
        (∀ csl, cn = .ok csl →
          ((_extract_fields_generic csl "csl").title ≠ ""
              ∨ (_extract_fields_generic csl "csl").journal ≠ "") →
          fetch_metadata_unified cr cn = .ok (_extract_fields_generic csl "csl")
            ∧ (_extract_fields_generic csl "csl").citations = Option.none)
        ∧ (∀ e, cn = .error e →
            fetch_metadata_unified cr cn
              = .error ("Not found via Crossref; DOI content negotiation also failed: " ++ e))
        ∧ (∀ csl, cn = .ok csl →
            (_extract_fields_generic csl "csl").title = "" →
            (_extract_fields_generic csl "csl").journal = "" →
            fetch_metadata_unified cr cn
              = .error "Metadata not available from Crossref or DOI content negotiation.")) := by
  refine ⟨?_, fun hfail => ⟨?_, ?_, ?_⟩⟩
  · intro msg hcr hne
    subst hcr
    have h : fetch_metadata_unified (some msg) cn
        = if (_extract_fields_generic msg "crossref").title ≠ ""
              ∨ (_extract_fields_generic msg "crossref").journal ≠ ""
          then .ok (_extract_fields_generic msg "crossref")
          else fallbackCN cn := rfl
    rw [h, if_pos hne]
  · intro csl hcn hne
    subst hcn
    exact ⟨(fetch_eq_fallback cr _ hfail).trans (fallbackCN_ok csl hne), csl_citations_none csl⟩
  · intro e hcn
    subst hcn
    exact (fetch_eq_fallback cr _ hfail).trans rfl
  · intro csl hcn h1 h2
    subst hcn
    exact (fetch_eq_fallback cr _ hfail).trans (fallbackCN_empty csl h1 h2)

/-- C3 witness: a successful Crossref response with a non-empty title is
returned as-is (citation count populated), and with the primary tier failing
the fallback record is returned without a citation count. -/
theorem fetch_metadata_unified_spec_witness :
    fetch_metadata_unified
        (some ⟨.scalar "Paper", .scalar "Journ", "Pub", "", [], [[2020]], [], [], "", some 7⟩)
        (.error "x")
      = .ok (_extract_fields_generic
          ⟨.scalar "Paper", .scalar "Journ", "Pub", "", [], [[2020]], [], [], "", some 7⟩
          "crossref")
    ∧ (fetch_metadata_unified Option.none
          (.ok ⟨.scalar "Paper", .scalar "Journ", "Pub", "", [], [[2020]], [], [], "", some 7⟩)
        = .ok (_extract_fields_generic
            ⟨.scalar "Paper", .scalar "Journ", "Pub", "", [], [[2020]], [], [], "", some 7⟩
            "csl")
      ∧ (_extract_fields_generic
          ⟨.scalar "Paper", .scalar "Journ", "Pub", "", [], [[2020]], [], [], "", some 7⟩
          "csl").citations = Option.none) :=
  ⟨(fetch_metadata_unified_spec
      (some ⟨.scalar "Paper", .scalar "Journ", "Pub", "", [], [[2020]], [], [], "", some 7⟩)
      (.error "x")).1 _ rfl (by decide),
   (fetch_metadata_unified_spec Option.none
      (.ok ⟨.scalar "Paper", .scalar "Journ", "Pub", "", [], [[2020]], [], [], "", some 7⟩)).2
      (Or.inl rfl) |>.1 _ rfl (by decide)⟩

/-- The final strip of `normalize_doi_input` makes its output strip-invariant. -/
theorem pyStripL_normalize (s : String) :
    pyStripL (normalize_doi_input s).data = (normalize_doi_input s).data :=
  pyStripL_idem _

/-- `normalize_doi_input` is the identity on a stripped string that carries
none of the four recognized markers. -/
theorem normalize_eq_self (y : String) (hs : pyStripL y.data = y.data)
    (h : startsWithRecognized y = false) : normalize_doi_input y = y := by
  obtain ⟨d⟩ := y
  simp only [startsWithRecognized, Bool.or_eq_false_iff] at h
  obtain ⟨⟨⟨h1, h2⟩, h3⟩, h4⟩ := h
  simp only at hs
  unfold normalize_doi_input
  simp only [hs, h1, h2, h3, h4, if_false, Bool.false_eq_true]

/-- C4 (counterexample): `normalize_doi_input` is not idempotent on all
strings.  On `"doi:doi:10.1/ab"` one call removes only the first `"doi:"`
marker (at most one prefix per call), so a second call strips another one. -/
theorem normalize_doi_input_not_idempotent :
    normalize_doi_input (normalize_doi_input "doi:doi:10.1/ab")
      ≠ normalize_doi_input "doi:doi:10.1/ab" := by decide

/-- C4 (amended): `normalize_doi_input` is idempotent on every string whose
normalization does not itself start (case-insensitively) with a recognized
prefix; it removes at most one recognized prefix per call in the fixed
priority order, as witnessed by `normalize("doi:doi:10.1/ab") = "doi:10.1/ab"`,
and `normalize("https://doi.org/10.1/ab") = normalize("DOI:10.1/ab") = "10.1/ab"`. -/
theorem normalize_doi_input_spec (x : String)
    (h : startsWithRecognized (normalize_doi_input x) = false) :
    normalize_doi_input (normalize_doi_input x) = normalize_doi_input x
      ∧ normalize_doi_input "doi:doi:10.1/ab" = "doi:10.1/ab"
      ∧ normalize_doi_input "https://doi.org/10.1/ab" = "10.1/ab"
      ∧ normalize_doi_input "DOI:10.1/ab" = "10.1/ab" := by
  refine ⟨normalize_eq_self _ (pyStripL_normalize x) h, by decide, by decide, by decide⟩

/-- C4 witness: the amended idempotence theorem applied at `"DOI: 10.1/ab"`. -/
theorem normalize_doi_input_spec_witness :
    startsWithRecognized (normalize_doi_input "DOI: 10.1/ab") = false
      ∧ normalize_doi_input (normalize_doi_input "DOI: 10.1/ab")
          = normalize_doi_input "DOI: 10.1/ab" :=
  ⟨by decide, (normalize_doi_input_spec "DOI: 10.1/ab" (by decide)).1⟩

/-- Row `i` of the enriched frame: the original row with the four computed
enrichment cells appended. -/
theorem merge_rows_get (useRF : Bool) (sc : String → String → Nat) (f : Frame)
    (jcr : List JcrRow) (scopus : List ScpRow) (cfg : MatchCfg)
    (h2 : f.cols ≠ []) (i : Nat) (r : List Cell) (hrow : f.rows.get? i = some r) :
    (merge_enrich_fast useRF sc f jcr scopus cfg).rows.get? i
      = some (r ++ [jcrImpCell useRF sc jcr cfg (journalNameAt f r),
                    jcrQrtCell useRF sc jcr cfg (journalNameAt f r),
                    Cell.bool (scpFlag useRF sc scopus cfg (journalNameAt f r)),
                    wosCell useRF sc jcr cfg (journalNameAt f r)]) := by
  have h1 : f.rows ≠ [] := by
    intro h
    rw [h] at hrow
    simp at hrow
  have hrow' : f.rows[i]? = some r := by
    rw [← List.get?_eq_getElem?]
    exact hrow
  unfold merge_enrich_fast
  rw [if_neg (by simp [List.isEmpty_iff, h1, h2])]
  simp [List.get?_eq_getElem?, List.getElem?_map, hrow']

theorem scpFlag_exact (useRF : Bool) (sc : String → String → Nat)
    (scopus : List ScpRow) (cfg : MatchCfg) (name : String)
    (hex : cfg.scopus_exact_first = true) (hmem : name ∈ scopus.map ScpRow.norm) :
    scpFlag useRF sc scopus cfg name = true := by
  rcases scopus with _ | ⟨s0, ss⟩
  · simp at hmem
  · unfold scpFlag
    rw [if_neg (by simp), if_pos ⟨hex, hmem⟩]

/-- C5: with the exact-first policy on, a record whose normalized journal
name occurs verbatim among the reference normalized names gets
`Indexed in Scopus = True` for every scorer and every threshold — the fuzzy
stage is bypassed. -/
theorem merge_scopus_exact_first (useRF : Bool) (sc : String → String → Nat)
    (f : Frame) (jcr : List JcrRow) (scopus : List ScpRow) (cfg : MatchCfg)
    (i : Nat) (r : List Cell)
    (h2 : f.cols ≠ []) (hex : cfg.scopus_exact_first = true)
    (hrow : f.rows.get? i = some r)
    (hmem : journalNameAt f r ∈ scopus.map ScpRow.norm) :
    ∃ c1 c2 c4, (merge_enrich_fast useRF sc f jcr scopus cfg).rows.get? i
      = some (r ++ [c1, c2, Cell.bool true, c4]) := by
  have h := merge_rows_get useRF sc f jcr scopus cfg h2 i r hrow
  rw [scpFlag_exact useRF sc scopus cfg _ hex hmem] at h
  exact ⟨_, _, _, h⟩

/-- C5 witness: exact match `"nature"` with fuzzy threshold 95 and a scorer
that always returns 0 still yields `Indexed in Scopus = True`. -/
theorem merge_scopus_exact_first_witness :
    journalNameAt ⟨["Journal"], [[Cell.str "Nature"]]⟩ [Cell.str "Nature"]
        ∈ ([⟨Cell.str "NATURE", "nature"⟩] : List ScpRow).map ScpRow.norm
      ∧ ∃ c1 c2 c4,
          (merge_enrich_fast true (fun _ _ => 0) ⟨["Journal"], [[Cell.str "Nature"]]⟩ []
            [⟨Cell.str "NATURE", "nature"⟩] ⟨95, true, true⟩).rows.get? 0
            = some ([Cell.str "Nature"] ++ [c1, c2, Cell.bool true, c4]) :=
  ⟨by decide,
    merge_scopus_exact_first true (fun _ _ => 0) ⟨["Journal"], [[Cell.str "Nature"]]⟩ []
      [⟨Cell.str "NATURE", "nature"⟩] ⟨95, true, true⟩ 0 [Cell.str "Nature"]
      (by decide) rfl (by decide) (by decide)⟩

theorem jcrImpCell_of_none (useRF : Bool) (sc : String → String → Nat)
    (jcr : List JcrRow) (cfg : MatchCfg) (name : String)
    (h : jcrMatch useRF sc jcr cfg name = Option.none) :
    jcrImpCell useRF sc jcr cfg name = Cell.null := by
  unfold jcrImpCell
  rw [h]

theorem jcrQrtCell_of_none (useRF : Bool) (sc : String → String → Nat)
    (jcr : List JcrRow) (cfg : MatchCfg) (name : String)
    (h : jcrMatch useRF sc jcr cfg name = Option.none) :
    jcrQrtCell useRF sc jcr cfg name = Cell.null := by
  unfold jcrQrtCell
  rw [h]

theorem wosCell_match (useRF : Bool) (sc : String → String → Nat)
    (jcr : List JcrRow) (cfg : MatchCfg) (name : String)
    (hm : (jcrMatch useRF sc jcr cfg name).isSome = true)
    (hw : cfg.wos_if_missing = true) :
    wosCell useRF sc jcr cfg name = Cell.bool true := by
  unfold wosCell
  rw [if_pos ⟨hm, hw⟩]

theorem wosCell_nomatch (useRF : Bool) (sc : String → String → Nat)
    (jcr : List JcrRow) (cfg : MatchCfg) (name : String)
    (hm : (jcrMatch useRF sc jcr cfg name).isSome = false)
    (hw : cfg.wos_if_missing = true) :
    wosCell useRF sc jcr cfg name = Cell.bool false := by
  unfold wosCell
  rw [if_neg (by simp [hm]), if_pos hw]

theorem wosCell_off (useRF : Bool) (sc : String → String → Nat)
    (jcr : List JcrRow) (cfg : MatchCfg) (name : String)
    (hw : cfg.wos_if_missing = false) :
    wosCell useRF sc jcr cfg name = Cell.null := by
  unfold wosCell
  rw [if_neg (by simp [hw]), if_neg (by simp [hw])]

/-- C6 (counterexample): an impact-table match whose best score meets the
threshold does NOT set the WoS flag to true when `wos_if_missing` is
disabled — the matched record keeps the `None` sentinel, so an impact-table
match does not unconditionally imply the flag. -/
theorem merge_wos_counterexample :
    (merge_enrich_fast true (fun a b => if a = b then 100 else 0)
        ⟨["Journal"], [[Cell.str "x"]]⟩
        [⟨Cell.str "X", Cell.int 5, Cell.str "Q1", "x"⟩] [] ⟨80, false, true⟩).rows.get? 0
      = some [Cell.str "x", Cell.int 5, Cell.str "Q1", Cell.bool false, Cell.null]
    ∧ (80 : Nat) ≤ (fun a b : String => if a = b then 100 else 0) "x" "x"
    ∧ Cell.null ≠ Cell.bool true := by
  refine ⟨by decide, by decide, by decide⟩

/-- C6 (amended): when `wos_if_missing` is enabled, the WoS flag is `True`
exactly on records with an accepted impact-table match and `False` on the
rest; when disabled every record — matched or not — gets the `None`
sentinel, which is distinct from `False`; and against an empty impact table
every record gets `impact = None`, `quartile = None` and the
`wos_if_missing`-controlled default flag. -/
theorem merge_wos_policy (useRF : Bool) (sc : String → String → Nat)
    (f : Frame) (jcr : List JcrRow) (scopus : List ScpRow) (cfg : MatchCfg)
    (i : Nat) (r : List Cell)
    (h2 : f.cols ≠ []) (hrow : f.rows.get? i = some r) :
    (cfg.wos_if_missing = true →
        (jcrMatch useRF sc jcr cfg (journalNameAt f r)).isSome = true →
        ∃ c1 c2 c3, (merge_enrich_fast useRF sc f jcr scopus cfg).rows.get? i
          = some (r ++ [c1, c2, c3, Cell.bool true]))
    ∧ (cfg.wos_if_missing = true →
        (jcrMatch useRF sc jcr cfg (journalNameAt f r)).isSome = false →
        ∃ c1 c2 c3, (merge_enrich_fast useRF sc f jcr scopus cfg).rows.get? i
          = some (r ++ [c1, c2, c3, Cell.bool false]))
    ∧ (cfg.wos_if_missing = false →
        ∃ c1 c2 c3, (merge_enrich_fast useRF sc f jcr scopus cfg).rows.get? i
          = some (r ++ [c1, c2, c3, Cell.null]))
    ∧ (jcr = [] → cfg.wos_if_missing = true →
        ∃ c3, (merge_enrich_fast useRF sc f jcr scopus cfg).rows.get? i
          = some (r ++ [Cell.null, Cell.null, c3, Cell.bool false]))
    ∧ (jcr = [] → cfg.wos_if_missing = false →
        ∃ c3, (merge_enrich_fast useRF sc f jcr scopus cfg).rows.get? i
          = some (r ++ [Cell.null, Cell.null, c3, Cell.null])) := by
  refine ⟨fun hw hm => ?_, fun hw hm => ?_, fun hw => ?_, fun hj hw => ?_, fun hj hw => ?_⟩
  · have h := merge_rows_get useRF sc f jcr scopus cfg h2 i r hrow
    rw [wosCell_match useRF sc jcr cfg _ hm hw] at h
    exact ⟨_, _, _, h⟩
  · have h := merge_rows_get useRF sc f jcr scopus cfg h2 i r hrow
    rw [wosCell_nomatch useRF sc jcr cfg _ hm hw] at h
    exact ⟨_, _, _, h⟩
  · have h := merge_rows_get useRF sc f jcr scopus cfg h2 i r hrow
    rw [wosCell_off useRF sc jcr cfg _ hw] at h
    exact ⟨_, _, _, h⟩
  · subst hj
    have h := merge_rows_get useRF sc f [] scopus cfg h2 i r hrow
    rw [jcrImpCell_of_none useRF sc [] cfg _ rfl, jcrQrtCell_of_none useRF sc [] cfg _ rfl,
      wosCell_nomatch useRF sc [] cfg _ rfl hw] at h
    exact ⟨_, h⟩
  · subst hj
    have h := merge_rows_get useRF sc f [] scopus cfg h2 i r hrow
    rw [jcrImpCell_of_none useRF sc [] cfg _ rfl, jcrQrtCell_of_none useRF sc [] cfg _ rfl,
      wosCell_off useRF sc [] cfg _ hw] at h
    exact ⟨_, h⟩

/-- C6 witness: the amended policy applied to a one-row frame with an empty
impact table under both policy settings of the flag default. -/
theorem merge_wos_policy_witness :
    (∃ c3, (merge_enrich_fast true (fun _ _ => 0) ⟨["Journal"], [[Cell.str "x"]]⟩ [] []
        ⟨80, true, true⟩).rows.get? 0
        = some ([Cell.str "x"] ++ [Cell.null, Cell.null, c3, Cell.bool false]))
    ∧ ∃ c1 c2 c3, (merge_enrich_fast true (fun _ _ => 0) ⟨["Journal"], [[Cell.str "x"]]⟩ [] []
        ⟨80, false, true⟩).rows.get? 0
        = some ([Cell.str "x"] ++ [c1, c2, c3, Cell.null]) :=
  ⟨(merge_wos_policy true (fun _ _ => 0) ⟨["Journal"], [[Cell.str "x"]]⟩ [] []
      ⟨80, true, true⟩ 0 [Cell.str "x"] (by decide) rfl).2.2.2.1 rfl rfl,
   (merge_wos_policy true (fun _ _ => 0) ⟨["Journal"], [[Cell.str "x"]]⟩ [] []
      ⟨80, false, true⟩ 0 [Cell.str "x"] (by decide) rfl).2.2.1 rfl⟩

theorem listMax_lt (m : Nat) (l : List Nat) (hm : 0 < m) (h : ∀ x ∈ l, x < m) :
    listMax l < m := by
  induction l with
  | nil => exact hm
  | cons a as ih =>
    have ha := h a (List.mem_cons_self a as)
    have has := ih fun x hx => h x (List.mem_cons_of_mem a hx)
    simp only [listMax, List.foldr]
    exact max_lt ha has

theorem jcrMatch_empty_name (useRF : Bool) (sc : String → String → Nat)
    (jcr : List JcrRow) (cfg : MatchCfg) (hsc : ∀ y, sc "" y < cfg.min_score) :
    jcrMatch useRF sc jcr cfg "" = Option.none := by
  rcases jcr with _ | ⟨j0, js⟩
  · rfl
  · have hpos : 0 < cfg.min_score := Nat.lt_of_le_of_lt (Nat.zero_le _) (hsc j0.norm)
    unfold jcrMatch
    rw [if_neg (by simp)]
    rcases useRF with _ | _
    · rw [if_neg (by simp), if_pos rfl]
    · rw [if_pos rfl, if_neg]
      intro hle
      have hlt : listMax (((j0 :: js).map fun r => r.norm).map (sc "")) < cfg.min_score := by
        apply listMax_lt _ _ hpos
        intro x hx
        rcases List.mem_map.mp hx with ⟨y, _, rfl⟩
        exact hsc y
      exact absurd hle (Nat.not_le.mpr hlt)

theorem scpFlag_empty_name (useRF : Bool) (sc : String → String → Nat)
    (scopus : List ScpRow) (cfg : MatchCfg)
    (hsc : ∀ y, sc "" y < cfg.min_score) (hnm : "" ∉ scopus.map ScpRow.norm) :
    scpFlag useRF sc scopus cfg "" = false := by
  rcases scopus with _ | ⟨s0, ss⟩
  · rfl
  · have hpos : 0 < cfg.min_score := Nat.lt_of_le_of_lt (Nat.zero_le _) (hsc s0.norm)
    unfold scpFlag
    rw [if_neg (by simp), if_neg (by rintro ⟨_, hm⟩; exact hnm hm)]
    rcases useRF with _ | _
    · rw [if_neg (by simp)]
      simp only [decide_eq_false_iff_not]
      exact Nat.not_le.mpr (hsc _)
    · rw [if_pos rfl]
      simp only [decide_eq_false_iff_not]
      apply Nat.not_le.mpr
      apply listMax_lt _ _ hpos
      intro x hx
      rcases List.mem_map.mp hx with ⟨y, _, rfl⟩
      exact hsc y

/-- C7 (counterexample): a record with an empty normalized journal name IS
reported as indexed when the indexing table itself contains an empty
normalized name and the exact-first policy is on — even with a scorer that
never matches anything — contradicting "empty queries never match
regardless of the contents of the reference tables". -/
theorem merge_empty_query_counterexample :
    (merge_enrich_fast true (fun _ _ => 0) ⟨["Journal"], [[Cell.str ""]]⟩ []
        [⟨Cell.str ",", ""⟩] ⟨80, true, true⟩).rows.get? 0
      = some [Cell.str "", Cell.null, Cell.null, Cell.bool true, Cell.bool false]
    ∧ ("" : String) ∈ ([⟨Cell.str ",", ""⟩] : List ScpRow).map ScpRow.norm
    ∧ journalNameAt ⟨["Journal"], [[Cell.str ""]]⟩ [Cell.str ""] = "" := by
  refine ⟨by decide, by decide, by decide⟩

/-- C7 (amended): a record with an empty normalized journal name gets no
impact-table fields and no Scopus match, provided the scorer rates empty
queries below the threshold (as WRatio does) and the indexing table contains
no empty normalized name; without the latter proviso the exact-first path
can match the empty string. -/
theorem merge_empty_query_no_match (useRF : Bool) (sc : String → String → Nat)
    (f : Frame) (jcr : List JcrRow) (scopus : List ScpRow) (cfg : MatchCfg)
    (i : Nat) (r : List Cell)
    (h2 : f.cols ≠ []) (hrow : f.rows.get? i = some r)
    (hq : journalNameAt f r = "")
    (hsc : ∀ y, sc "" y < cfg.min_score)
    (hnm : "" ∉ scopus.map ScpRow.norm) :
    ∃ c4, (merge_enrich_fast useRF sc f jcr scopus cfg).rows.get? i
      = some (r ++ [Cell.null, Cell.null, Cell.bool false, c4]) := by
  have h := merge_rows_get useRF sc f jcr scopus cfg h2 i r hrow
  rw [hq, jcrImpCell_of_none useRF sc jcr cfg _ (jcrMatch_empty_name useRF sc jcr cfg hsc),
    jcrQrtCell_of_none useRF sc jcr cfg _ (jcrMatch_empty_name useRF sc jcr cfg hsc),
    scpFlag_empty_name useRF sc scopus cfg hsc hnm] at h
  exact ⟨_, h⟩

/-- C7 witness: the amended no-match theorem at an empty journal cell, with
a WRatio-like scorer that scores empty queries 0 and non-empty reference
tables free of empty normalized names. -/
theorem merge_empty_query_no_match_witness :
    journalNameAt ⟨["Journal"], [[Cell.str ""]]⟩ [Cell.str ""] = ""
      ∧ (∀ y, (fun a _ : String => if a = "" then 0 else 100) "" y < 80)
      ∧ ∃ c4, (merge_enrich_fast true (fun a _ : String => if a = "" then 0 else 100)
          ⟨["Journal"], [[Cell.str ""]]⟩ [⟨Cell.str "X", Cell.int 5, Cell.str "Q1", "x"⟩]
          [⟨Cell.str "Y", "y"⟩] ⟨80, true, true⟩).rows.get? 0
          = some ([Cell.str ""] ++ [Cell.null, Cell.null, Cell.bool false, c4]) :=
  ⟨by decide, fun y => by simp,
    merge_empty_query_no_match true (fun a _ : String => if a = "" then 0 else 100)
      ⟨["Journal"], [[Cell.str ""]]⟩ [⟨Cell.str "X", Cell.int 5, Cell.str "Q1", "x"⟩]
      [⟨Cell.str "Y", "y"⟩] ⟨80, true, true⟩ 0 [Cell.str ""]
      (by decide) rfl (by decide) (fun y => by simp) (by decide)⟩

/-- C8: `read_jcr` fails with the schema error exactly when the sheet has
fewer than 17 columns (no partial table on failure, since the result is a
single `Except` value), and on success projects exactly the columns at
positional indices 1, 12 and 16 plus the per-row normalized-name key. -/
theorem read_jcr_schema (s : Sheet) :
    (s.header.length < 17 →
        read_jcr s = .error "JCR file has fewer than 17 columns; cannot map B/M/Q reliably.")
    ∧ (¬s.header.length < 17 →
        read_jcr s = .ok (s.rows.map fun r =>
          ⟨r.getD 1 Cell.null, r.getD 12 Cell.null, r.getD 16 Cell.null,
            normalize_journal (r.getD 1 Cell.null)⟩))
    ∧ (∀ e, read_jcr s = .error e → s.header.length < 17) := by
  refine ⟨fun h => ?_, fun h => ?_, fun e he => ?_⟩
  · unfold read_jcr
    rw [if_pos h]
  · unfold read_jcr
    rw [if_neg h]
  · by_contra h
    unfold read_jcr at he
    rw [if_neg h] at he
    exact absurd he (by simp)

/-- C8 witness: a 16-column sheet is rejected with the schema error; a
17-column sheet is projected positionally onto columns 1/12/16. -/
theorem read_jcr_schema_witness :
    (List.replicate 16 "h").length < 17
      ∧ read_jcr ⟨List.replicate 16 "h", [[Cell.str "x"]]⟩
          = .error "JCR file has fewer than 17 columns; cannot map B/M/Q reliably."
      ∧ read_jcr ⟨List.replicate 17 "h", [[Cell.null, Cell.str "Nature J"]]⟩
          = .ok [⟨Cell.str "Nature J", Cell.null, Cell.null, "nature j"⟩] :=
  ⟨by decide,
    (read_jcr_schema ⟨List.replicate 16 "h", [[Cell.str "x"]]⟩).1 (by decide),
    ((read_jcr_schema ⟨List.replicate 17 "h", [[Cell.null, Cell.str "Nature J"]]⟩).2.1
      (by decide)).trans rfl⟩

/-- C9 (counterexample): the title column is NOT chosen by a fixed
preference order — `_SCOPUS_TITLE_LIKELY` is a Python `set`, so its
iteration order is unspecified.  Two valid iteration orders of the same set
pick different columns from the same spreadsheet (here `"Title"` vs the
spec's preferred `"Source Title"`), refuting "choosing the column that
matches the earliest name in that list". -/
theorem pick_title_col_counterexample :
    (["title", "source title", "journal", "publication title", "full title",
      "journal title", "journal name", "scopus title", "scopus source title"] : List String).Perm
        _SCOPUS_TITLE_LIKELY
      ∧ _pick_scopus_title_col
          ["title", "source title", "journal", "publication title", "full title",
            "journal title", "journal name", "scopus title", "scopus source title"]
          [⟨"Source Title", true⟩, ⟨"Title", true⟩] = "Title"
      ∧ _pick_scopus_title_col _SCOPUS_TITLE_LIKELY
          [⟨"Source Title", true⟩, ⟨"Title", true⟩] = "Source Title"
      ∧ ("Title" : String) ≠ "Source Title" := by
  refine ⟨by decide, by decide, by decide, by decide⟩

/-- C9 (amended): for every iteration order of the likely-name set, if some
header (lowercased and trimmed) is a likely name then the picked column is
one of those matching columns (which one depends on the set's iteration
order, not on a fixed preference list); if no header matches, the first
text-typed column is chosen, and if there is none, the first column. -/
theorem pick_title_col_spec (iterOrder : List String) (cols : List Column)
    (hperm : iterOrder.Perm _SCOPUS_TITLE_LIKELY) :
    ((∃ c ∈ cols, lowerStrip c.name ∈ _SCOPUS_TITLE_LIKELY) →
        ∃ c ∈ cols, _pick_scopus_title_col iterOrder cols = c.name
          ∧ lowerStrip c.name ∈ _SCOPUS_TITLE_LIKELY)
    ∧ ((∀ c ∈ cols, lowerStrip c.name ∉ _SCOPUS_TITLE_LIKELY) →
        (∀ c0, cols.find? (fun c => c.isText) = some c0 →
            _pick_scopus_title_col iterOrder cols = c0.name)
        ∧ (cols.find? (fun c => c.isText) = Option.none →
            _pick_scopus_title_col iterOrder cols = (cols.headD ⟨"", false⟩).name)) := by
  constructor
  · rintro ⟨c0, hc0, hk⟩
    have hkey : lowerStrip c0.name ∈ iterOrder := hperm.mem_iff.mpr hk
    have hpair : (lowerStrip c0.name, c0.name)
        ∈ (cols.map fun c => (lowerStrip c.name, c.name)).reverse := by
      rw [List.mem_reverse]
      exact List.mem_map.mpr ⟨c0, hc0, rfl⟩
    have hsome : (pyDictGet (cols.map fun c => (lowerStrip c.name, c.name))
        (lowerStrip c0.name)).isSome = true := by
      unfold pyDictGet
      rcases hfind : (cols.map fun c => (lowerStrip c.name, c.name)).reverse.find?
          (fun p => p.1 = lowerStrip c0.name) with _ | p
      · rw [List.find?_eq_none] at hfind
        exact absurd (by simp) (hfind _ hpair)
      · rw [hfind]
        rfl
    rcases hfs : iterOrder.findSome? (fun key =>
        pyDictGet (cols.map fun c => (lowerStrip c.name, c.name)) key) with _ | c
    · have hall := List.findSome?_eq_none.mp hfs _ hkey
      rw [hall] at hsome
      simp at hsome
    · rcases List.exists_of_findSome?_eq_some hfs with ⟨key, hkmem, hkval⟩
      unfold pyDictGet at hkval
      rcases hfind : (cols.map fun c => (lowerStrip c.name, c.name)).reverse.find?
          (fun p => p.1 = key) with _ | p
      · rw [hfind] at hkval
        simp at hkval
      · rw [hfind] at hkval
        have hp2 : p.2 = c := by simpa using hkval
        have hpm : p ∈ cols.map fun c => (lowerStrip c.name, c.name) :=
          List.mem_reverse.mp (List.mem_of_find?_eq_some hfind)
        rcases List.mem_map.mp hpm with ⟨c1, hc1, hpc⟩
        have hp1 : p.1 = key := by simpa using List.find?_some hfind
        refine ⟨c1, hc1, ?_, ?_⟩
        · unfold _pick_scopus_title_col
          rw [hfs, ← hp2, ← hpc]
        · rw [show lowerStrip c1.name = key from by rw [← hp1, ← hpc]]
          exact hperm.mem_iff.mp hkmem
  · intro hnone
    have hfs : iterOrder.findSome? (fun key =>
        pyDictGet (cols.map fun c => (lowerStrip c.name, c.name)) key) = Option.none := by
      rw [List.findSome?_eq_none]
      intro key hkmem
      unfold pyDictGet
      rw [Option.map_eq_none']
      rw [List.find?_eq_none]
      intro p hp
      rcases List.mem_map.mp (List.mem_reverse.mp hp) with ⟨c1, hc1, hpc⟩
      intro hpk
      apply hnone c1 hc1
      rw [show lowerStrip c1.name = key from by
        rw [← hpc] at hpk
        simpa using hpk]
      exact hperm.mem_iff.mp hkmem
    constructor
    · intro c0 hf
      unfold _pick_scopus_title_col
      rw [hfs, hf]
    · intro hf
      unfold _pick_scopus_title_col
      rw [hfs, hf]

/-- C9 witness: the amended picker theorem at the literal element order with
one matching header, and at a sheet with no matching header but a text
column. -/
theorem pick_title_col_spec_witness :
    (∃ c ∈ [(⟨"Source Title", true⟩ : Column), ⟨"Extra", false⟩],
        lowerStrip c.name ∈ _SCOPUS_TITLE_LIKELY)
      ∧ (∃ c ∈ [(⟨"Source Title", true⟩ : Column), ⟨"Extra", false⟩],
          _pick_scopus_title_col _SCOPUS_TITLE_LIKELY
              [⟨"Source Title", true⟩, ⟨"Extra", false⟩] = c.name
            ∧ lowerStrip c.name ∈ _SCOPUS_TITLE_LIKELY)
      ∧ _pick_scopus_title_col _SCOPUS_TITLE_LIKELY
          [⟨"Num", false⟩, ⟨"Txt", true⟩] = "Txt" :=
  ⟨by decide,
    (pick_title_col_spec _SCOPUS_TITLE_LIKELY
      [⟨"Source Title", true⟩, ⟨"Extra", false⟩] (List.Perm.refl _)).1 (by decide),
    (pick_title_col_spec _SCOPUS_TITLE_LIKELY
      [⟨"Num", false⟩, ⟨"Txt", true⟩] (List.Perm.refl _)).2 (by decide) |>.1
      ⟨"Txt", true⟩ (by decide)⟩

/-- C10: on a non-empty input frame, `merge_enrich_fast` preserves every
original column name, every original cell and the row order, appending
exactly the four enrichment columns; an empty frame is returned unchanged
with no columns added. -/
theorem merge_frame_effect (useRF : Bool) (sc : String → String → Nat) (f : Frame)
    (jcr : List JcrRow) (scopus : List ScpRow) (cfg : MatchCfg) :
    (f.rows ≠ [] → f.cols ≠ [] →
        (merge_enrich_fast useRF sc f jcr scopus cfg).cols
            = f.cols ++ ["Impact Factor (JCR)", "Quartile (JCR)", "Indexed in Scopus",
                "Indexed in Web of Science"]
          ∧ (merge_enrich_fast useRF sc f jcr scopus cfg).rows.length = f.rows.length
          ∧ ∀ i r, f.rows.get? i = some r →
              ∃ c1 c2 c3 c4, (merge_enrich_fast useRF sc f jcr scopus cfg).rows.get? i
                = some (r ++ [c1, c2, c3, c4]))
    ∧ ((f.rows.isEmpty || f.cols.isEmpty) = true →
        merge_enrich_fast useRF sc f jcr scopus cfg = f) := by
  constructor
  · intro h1 h2
    refine ⟨?_, ?_, fun i r hrow => ?_⟩
    · unfold merge_enrich_fast
      rw [if_neg (by simp [List.isEmpty_iff, h1, h2])]
      rfl
    · unfold merge_enrich_fast
      rw [if_neg (by simp [List.isEmpty_iff, h1, h2])]
      exact List.length_map _ _
    · exact ⟨_, _, _, _, merge_rows_get useRF sc f jcr scopus cfg h2 i r hrow⟩
  · intro h
    unfold merge_enrich_fast
    rw [if_pos h]

/-- C10 witness: the frame shape on a concrete one-row batch and on the
empty batch. -/
theorem merge_frame_effect_witness :
    ((merge_enrich_fast true (fun _ _ => 0) ⟨["DOI", "Journal"], [[Cell.str "d", Cell.str "J"]]⟩
          [] [] ⟨80, true, true⟩).cols
        = ["DOI", "Journal"] ++ ["Impact Factor (JCR)", "Quartile (JCR)", "Indexed in Scopus",
            "Indexed in Web of Science"]
      ∧ (merge_enrich_fast true (fun _ _ => 0) ⟨["DOI", "Journal"], [[Cell.str "d", Cell.str "J"]]⟩
          [] [] ⟨80, true, true⟩).rows.length = ([[Cell.str "d", Cell.str "J"]] : List (List Cell)).length)
    ∧ merge_enrich_fast true (fun _ _ => 0) ⟨["DOI", "Journal"], []⟩ [] [] ⟨80, true, true⟩
        = ⟨["DOI", "Journal"], []⟩ :=
  ⟨⟨((merge_frame_effect true (fun _ _ => 0) ⟨["DOI", "Journal"], [[Cell.str "d", Cell.str "J"]]⟩
        [] [] ⟨80, true, true⟩).1 (by decide) (by decide)).1,
    ((merge_frame_effect true (fun _ _ => 0) ⟨["DOI", "Journal"], [[Cell.str "d", Cell.str "J"]]⟩
        [] [] ⟨80, true, true⟩).1 (by decide) (by decide)).2.1⟩,
   (merge_frame_effect true (fun _ _ => 0) ⟨["DOI", "Journal"], []⟩ [] []
      ⟨80, true, true⟩).2 (by decide)⟩

end DOINav
